import Mathlib

/-!
Verification of the response-streaming and citation-reconciliation core of the
hwd-carebot assistant backend.

The development shallowly embeds the two backend-dispatch modules:
  * `src/utils/chats.py`   (direct-completion pipeline, LiteLLM)
  * `src/utils/foundry.py` (Azure AI Foundry agent pipeline)

Python strings are modelled as `String` / `List Char`; Python `None`-able
values as `Option`; Python dict-presence checks as `Option.isSome`; Python
truthiness of strings as non-emptiness; raised exceptions as `Except String`
carrying the exception's message text.  External collaborators (the LiteLLM
`completion` call, the Azure agents client, the chainlit session store) are
passed in as explicit inputs, exactly as the spec treats them (black boxes).
-/

namespace Carebot

/-! ### Python string primitives, on `List Char` -/

/-- Python `str.startswith`, on char lists (mirrors `List.isPrefixOf`). -/
def listStartsWith : List Char → List Char → Bool
  | [], _ => true
  | _ :: _, [] => false
  | a :: as, b :: bs => a == b && listStartsWith as bs

/-- Python whitespace characters stripped by `str.strip()` (ASCII range). -/
def isPySpace (c : Char) : Bool :=
  c == ' ' || c == '\t' || c == '\n' || c == '\x0d' || c == '\x0b' || c == '\x0c'

/-- Python `str.strip()`: drop leading and trailing whitespace. -/
def pyStrip (l : List Char) : List Char :=
  ((l.dropWhile isPySpace).reverse.dropWhile isPySpace).reverse

/-- The literal opening thinking delimiter `"<think>"` of `chat_completion`. -/
def openTag : List Char := "<think>".data

/-- The literal closing thinking delimiter `"</think>"` of `chat_completion`. -/
def closeTag : List Char := "</think>".data

/-- Whether `"</think>"` occurs as a substring (at any position). -/
def hasClose : List Char → Bool
  | [] => false
  | c :: rest => listStartsWith closeTag (c :: rest) || hasClose rest

/-- Python `s.split("</think>")`: non-overlapping, left-to-right greedy split
on the closing thinking delimiter, returning the list of segments. -/
def pySplitThink : List Char → List (List Char)
  | [] => [[]]
  | c :: rest =>
    if listStartsWith closeTag (c :: rest) then
      [] :: pySplitThink (rest.drop 7)
    else
      match pySplitThink rest with
      | [] => [[c]]
      | seg :: segs => (c :: seg) :: segs
  termination_by s => s.length
  decreasing_by
    · simp only [List.length_cons, List.length_drop]; omega
    · simp

/-- Python `s.split("</think>")[-1]`: the last split segment. -/
def pyLastSegThink (s : List Char) : List Char :=
  (pySplitThink s).getLastD []

/-- Python `s.replace(pat, "")` for a non-empty pattern: remove all
non-overlapping occurrences, scanning left to right. -/
def removeAll (pat : List Char) : List Char → List Char
  | [] => []
  | c :: rest =>
    if h : pat ≠ [] ∧ listStartsWith pat (c :: rest) then
      removeAll pat ((c :: rest).drop pat.length)
    else
      c :: removeAll pat rest
  termination_by s => s.length
  decreasing_by
    · simp only [List.length_cons, List.length_drop]
      cases pat with
      | nil => exact absurd rfl h.1
      | cons p ps => simp; omega
    · simp

/-- Substring test: does `pat` occur inside `s`? -/
def containsSeg (pat : List Char) : List Char → Bool
  | [] => listStartsWith pat []
  | c :: rest => listStartsWith pat (c :: rest) || containsSeg pat rest

/-! ### `urllib.parse.quote` (default `safe='/'`), used for SharePoint links -/

/-- UTF-8 encoding of one character as a list of byte values. -/
def utf8Bytes (c : Char) : List Nat :=
  let n := c.toNat
  if n < 0x80 then [n]
  else if n < 0x800 then [0xC0 + n / 64, 0x80 + n % 64]
  else if n < 0x10000 then [0xE0 + n / 4096, 0x80 + (n / 64) % 64, 0x80 + n % 64]
  else [0xF0 + n / 262144, 0x80 + (n / 4096) % 64, 0x80 + (n / 64) % 64, 0x80 + n % 64]

/-- Uppercase hexadecimal digit for a value in `0..15`. -/
def hexDigit (n : Nat) : Char :=
  if n < 10 then Char.ofNat ('0'.toNat + n) else Char.ofNat ('A'.toNat + (n - 10))

/-- Bytes left untouched by `urllib.parse.quote` with `safe='/'`:
ASCII alphanumerics, `_.-~` and `/`. -/
def isQuoteSafe (b : Nat) : Bool :=
  (0x41 ≤ b && b ≤ 0x5A) || (0x61 ≤ b && b ≤ 0x7A) || (0x30 ≤ b && b ≤ 0x39) ||
  b == '_'.toNat || b == '.'.toNat || b == '-'.toNat || b == '~'.toNat || b == '/'.toNat

/-- Percent-encode one byte, or keep it verbatim when safe. -/
def quoteByte (b : Nat) : List Char :=
  if isQuoteSafe b then [Char.ofNat b]
  else ['%', hexDigit (b / 16), hexDigit (b % 16)]

/-- Python `urllib.parse.quote(s)` (default `safe='/'`): percent-encode the
UTF-8 bytes of `s`, keeping unreserved bytes and `/`. -/
def pyQuote (s : String) : String :=
  ⟨(s.data.flatMap utf8Bytes).flatMap quoteByte⟩

/-! ### `src/utils/chats.py` — direct-completion pipeline -/

/-- Python truthiness of an optional string (`None` and `""` are falsy). -/
def pyTruthy : Option String → Bool
  | none => false
  | some s => s != ""

/-- Session `chat_settings` entries read by `get_llm_params`. -/
structure ChatSettings where
  temperature : String
  model_provider : String
  model_name : String
deriving DecidableEq

/-- The model-descriptor dict resolved from the configuration list
(`llm_details` in the source); absent keys are `none`. -/
structure LlmDetails where
  api_key : Option String
  api_version : Option String
  api_endpoint : Option String
deriving DecidableEq

/-- A temperature value as placed into the parameter dict: either the raw
session value, or the result of Python `float(...)` applied to it. -/
inductive TempParam where
  | raw (v : String)
  | pyFloat (v : String)
deriving DecidableEq

/-- One function-tool entry of the fixed `tools` list in `get_llm_params`. -/
structure ToolDef where
  type : String
  function_name : String
  function_description : String
  query_description : String
  required : List String
deriving DecidableEq

/-- The fixed `search_web` tool defined in `get_llm_params`. -/
def searchWebTool : ToolDef :=
  { type := "function"
    function_name := "search_web"
    function_description := "Search the web using SERP API"
    query_description := "The search query"
    required := ["query"] }

/-- The `chat_parameters` dict built by `get_llm_params`; keys that may be
absent are `Option` fields (`none` = key not in the dict). -/
structure ChatParameters where
  model : String
  messages : List String
  stream : Bool
  api_key : Option String
  api_version : Option String
  api_base : Option String
  temperature : Option TempParam
  tools : Option (List ToolDef)
deriving DecidableEq

/-- Embeds `get_llm_params` (src/utils/chats.py lines 13-84).  `messages`
are opaque to the builder and kept as an abstract list; the session lookups
(`chat_settings`, `chat_profile`) and the resolved `llm_details` are inputs.
The Python signature's default `use_tools = False` is mirrored. -/
def get_llm_params (cs : ChatSettings) (chat_profile : String)
    (llm_details : LlmDetails) (messages : List String)
    (use_tools : Bool := false) : ChatParameters :=
  let base : ChatParameters :=
    { model := chat_profile
      messages := messages
      stream := true
      api_key := llm_details.api_key
      api_version := none
      api_base := none
      temperature := none
      tools := none }
  let ps :=
    if cs.model_provider = "azure" then
      let ps := if pyTruthy llm_details.api_version then
          { base with api_version := llm_details.api_version } else base
      let ps := if pyTruthy llm_details.api_endpoint then
          { ps with api_base := llm_details.api_endpoint } else ps
      if cs.model_name ∉ ["o3-mini"] then
        { ps with temperature := some (TempParam.raw cs.temperature) }
      else ps
    else
      { base with temperature := some (TempParam.pyFloat cs.temperature) }
  if use_tools then { ps with tools := some [searchWebTool] } else ps

/-- One streamed chunk of the LiteLLM response: `choices[0].delta.content`
(`none` both when `choices` is empty and when the delta content is `None`),
and the `citations` attribute (`none` = `"citations" in chunk` is false). -/
structure Chunk where
  delta_content : Option String
  citations : Option (List String)
deriving DecidableEq

/-- Loop state of the streaming `for` in `chat_completion`: the live
`msg.content` buffer, the `is_thinking` flag, and `last_chunk`. -/
structure StreamState where
  content : String
  is_thinking : Bool
  last_chunk : Option Chunk
deriving DecidableEq

/-- One iteration of the chunk loop in `chat_completion` (lines 115-129):
on any chunk, first clear the placeholder if still thinking; append the
delta content when truthy; retain the chunk when it carries `citations`. -/
def processChunk (st : StreamState) (chunk : Chunk) : StreamState :=
  let st := if st.is_thinking then { st with content := "", is_thinking := false } else st
  let st := match chunk.delta_content with
    | some s => if s != "" then { st with content := st.content ++ s } else st
    | none => st
  if chunk.citations.isSome then { st with last_chunk := some chunk } else st

/-- The accumulated stream state over a whole chunk list, starting from the
`"[model] thinking..."` placeholder posted before the loop. -/
def streamRun (model_name : String) (chunks : List Chunk) : StreamState :=
  chunks.foldl processChunk
    { content := "[" ++ model_name ++ "] thinking...", is_thinking := true, last_chunk := none }

/-- The post-loop citation step (lines 131-138): when a citation-bearing
chunk was retained, append the Sources header and one `\n[c](c)` line per
citation URL, in that chunk's order. -/
def appendDirectSources (content : String) (last_chunk : Option Chunk) : String :=
  match last_chunk with
  | none => content
  | some ch =>
    match ch.citations with
    | none => content
    | some cs => cs.foldl (fun acc c => acc ++ ("\n[" ++ c ++ "](" ++ c ++ ")"))
        (content ++ "\n\n**Sources:**")

/-- The thinking-block removal step (lines 142-144): when the buffer starts
with `"<think>"`, keep only the last `"</think>"`-split segment, stripped. -/
def stripThinking (content : String) : String :=
  if listStartsWith openTag content.data then ⟨pyStrip (pyLastSegThink content.data)⟩
  else content

/-- The final `msg.content` produced by the body of `chat_completion` for a
given exhausted chunk stream. -/
def chat_completion_output (model_name : String) (chunks : List Chunk) : String :=
  let st := streamRun model_name chunks
  stripThinking (appendDirectSources st.content st.last_chunk)

/-- Outer error normalization shared by both pipelines: re-raise as
`RuntimeError(f"Error generating response in <name>: {str(e)}")`. -/
def wrapPipelineError (pipeline_name : String) : Except String String → Except String String
  | .ok s => .ok s
  | .error e => .error ("Error generating response in " ++ pipeline_name ++ ": " ++ e)

/-- The body of `chat_completion` up to its outer `except` handler: the
backend `completion(**chat_parameters)` call is an input that either yields
the chunk stream or raises. -/
def chat_completion_core (model_name : String)
    (backend : Except String (List Chunk)) : Except String String :=
  match backend with
  | .error e => .error e
  | .ok chunks => .ok (chat_completion_output model_name chunks)

/-- Embeds `chat_completion` (src/utils/chats.py lines 87-150): run the body,
normalizing any raised exception at the single outer boundary. -/
def chat_completion (model_name : String)
    (backend : Except String (List Chunk)) : Except String String :=
  wrapPipelineError "chat_completion" (chat_completion_core model_name backend)

/-- The parameter-building step inside `chat_completion` (line 106): the
source calls `get_llm_params(messages)` without forwarding its own
`use_tools` argument, so the builder's default applies. -/
def chat_completion_params (cs : ChatSettings) (chat_profile : String)
    (llm_details : LlmDetails) (messages : List String)
    (_use_tools : Bool) : ChatParameters :=
  get_llm_params cs chat_profile llm_details messages

/-! ### `src/utils/foundry.py` — Azure AI Foundry agent pipeline -/

/-- Python `s.strip()` lifted to `String`. -/
def pyStripS (s : String) : String := ⟨pyStrip s.data⟩

/-- A pending upload descriptor from the session `file_uploads` list
(built in `append_message`, src/utils/utils.py): declared name (read with
`upload.get("name", "Document")`, hence optional), MIME type, and local
path (Python-falsy when empty). -/
structure FileUpload where
  name : Option String
  mime : String
  path : String
deriving DecidableEq

/-- One outbound content block (`MessageInputTextBlock` /
`MessageInputImageFileBlock` with its detail hint). -/
inductive ContentBlock where
  | text (t : String)
  | imageFile (file_id : String) (detail : String)
deriving DecidableEq

/-- The fixed `CodeInterpreterTool().definitions` attached to every upload. -/
def codeInterpreterDefs : List String := ["code_interpreter"]

/-- A `MessageAttachment(file_id=..., tools=...)`. -/
structure MsgAttachment where
  file_id : String
  tools : List String
deriving DecidableEq

/-- One iteration of the upload loop in `chat_agent` (lines 76-97):
skip falsy paths; upload (the external `upload_and_poll` is modelled by
`fileIdOf`, mapping the path to the returned file id), append the
attachment; if the MIME type starts with `"image/"`, REPLACE the content
blocks with the `[text, image-file]` pair. -/
def uploadStep (user_input : String) (fileIdOf : String → String)
    (st : List ContentBlock × List MsgAttachment) (upload : FileUpload) :
    List ContentBlock × List MsgAttachment :=
  if upload.path != "" then
    let fid := fileIdOf upload.path
    let atts := st.2 ++ [{ file_id := fid, tools := codeInterpreterDefs }]
    if listStartsWith "image/".data upload.mime.data then
      ([ContentBlock.text user_input, ContentBlock.imageFile fid "high"], atts)
    else (st.1, atts)
  else st

/-- Embeds the content-block/attachment assembly of `chat_agent`
(lines 68-97): baseline blocks are the user text followed by one text block
per extracted file content, then the upload loop runs. -/
def build_content_blocks (user_input : String) (file_contents : List String)
    (file_uploads : List FileUpload) (fileIdOf : String → String) :
    List ContentBlock × List MsgAttachment :=
  file_uploads.foldl (uploadStep user_input fileIdOf)
    (ContentBlock.text user_input :: file_contents.map ContentBlock.text, [])

/-- The payload of one `(event_type, event_data, _)` triple from the run
stream: a `MessageDeltaChunk`, a `ThreadRun` (status plus the string form
of its `last_error`), or any other payload (its string form). -/
inductive EventData where
  | messageDelta (text : String)
  | threadRun (status : String) (last_error : String)
  | otherData (payload : String)
deriving DecidableEq

/-- One run-stream event: whether `event_type == AgentStreamEvent.ERROR`,
and the payload. -/
structure AgentEvent where
  is_error_type : Bool
  data : EventData
deriving DecidableEq

/-- Live state during the run-event loop: the delta-accumulated buffer and
the `is_thinking` flag. -/
structure DeltaState where
  content : String
  is_thinking : Bool
deriving DecidableEq

/-- Embeds the event dispatch of `chat_agent` (lines 113-130): deltas
append text; a `ThreadRun` with status `"failed"` raises its last error;
an `AgentStreamEvent.ERROR` event raises its payload; everything else is a
no-op. -/
def dispatchEvent (st : DeltaState) (ev : AgentEvent) : Except String DeltaState :=
  match ev.data with
  | .messageDelta t => .ok { content := st.content ++ t, is_thinking := false }
  | .threadRun status last_error =>
      if status = "failed" then .error last_error else .ok st
  | .otherData payload =>
      if ev.is_error_type then .error payload else .ok st

/-- The run-event loop over a finite event stream. -/
def runEventLoop (st : DeltaState) : List AgentEvent → Except String DeltaState
  | [] => .ok st
  | ev :: rest =>
    match dispatchEvent st ev with
    | .error e => .error e
    | .ok st' => runEventLoop st' rest

/-- Annotation payload kinds (`"url_citation" in annotation` /
`"file_path" in annotation` / neither). -/
inductive AnnotKind where
  | urlCitation (title : String) (url : String)
  | filePathAnn (file_id : String)
  | otherAnn
deriving DecidableEq

/-- One annotation of the finalized message: the literal marker text (the
`annotation.text` attribute; `none` when absent or not a string) and its
kind. -/
structure Annot where
  marker : Option String
  kind : AnnotKind
deriving DecidableEq

/-- A normalized citation source dict as appended to `citation_sources`. -/
inductive CitationSource where
  | url (title : String) (u : String)
  | file (name : String) (file_id : String) (sharepoint_url : Option String)
deriving DecidableEq

/-- The dedup key tuple: `('url', title, url)` or
`('file', name, sharepoint_url)`. -/
inductive SourceKey where
  | url (title : String) (u : String)
  | file (name : String) (link : Option String)
deriving DecidableEq

/-- The key under which a source is entered into `seen_sources`. -/
def sourceKey : CitationSource → SourceKey
  | .url t u => .url t u
  | .file n _ l => .file n l

/-- Rendering of one Sources line (lines 275-288). -/
def renderSource : CitationSource → String
  | .url title u => "\n- [" ++ title ++ "](" ++ u ++ ")"
  | .file name fid link =>
    match link with
    | some l => "\n- 📄 [" ++ name ++ "](" ++ l ++ ")"
    | none => "\n- 📄 **" ++ name ++ "** (File ID: `" ++ fid ++ "`)"

/-- The reserved internal document prefix `"doc_"`. -/
def docPrefixTag : List Char := "doc_".data

/-- The fixed SharePoint base path used when `SHAREPOINT_FIXED_PATH` is
unset. -/
def defaultSpBase : String :=
  "https://bspgovph.sharepoint.com/:b:/r/sites/CMTEINNOVATIONLAB/Shared%20Documents/HWDInfoAsst/"

/-- Resolution of `os.getenv("SHAREPOINT_FIXED_PATH", default)`. -/
def resolveSpBase (env : Option String) : String := env.getD defaultSpBase

/-- Python dict `get` on the `file_id_mapping` association list. -/
def lookupAssoc (m : List (String × String)) (k : String) : Option String :=
  (m.find? (fun p => p.1 == k)).map (fun p => p.2)

/-- Python dict assignment `m[k] = v` on the association list. -/
def assocSet (m : List (String × String)) (k v : String) : List (String × String) :=
  if (m.find? (fun p => p.1 == k)).isSome then
    m.map (fun p => if p.1 == k then (k, v) else p)
  else m ++ [(k, v)]

/-- State threaded through the annotation loop of `chat_agent`
(lines 177-253): the live buffer, the session `file_id_mapping`, and the
collected `citation_sources`. -/
structure AnnState where
  content : String
  mapping : List (String × String)
  sources : List CitationSource
deriving DecidableEq

/-- Embeds one iteration of the annotation loop (lines 180-253).  The
marker text, when present and truthy, is removed from the buffer wherever
it occurs; a URL citation whose URL is truthy and starts with `"doc_"` is
reclassified as a file citation with a synthesized SharePoint link; other
URL citations are genuine external citations; a file-path annotation
resolves its display name through the mapping, then the first pending
upload with a truthy path (cached), then the `"Document"` placeholder.
Link synthesis (`sp_base + quote(name)`) cannot fail in the model, so the
`except` fallback to `None` is unreachable here. -/
def processAnnot (spBase : String) (uploads : List FileUpload)
    (st : AnnState) (ann : Annot) : AnnState :=
  let content := match ann.marker with
    | some t => if t != "" then (⟨removeAll t.data st.content.data⟩ : String) else st.content
    | none => st.content
  match ann.kind with
  | .urlCitation title url =>
    if url != "" && listStartsWith docPrefixTag url.data then
      { st with content := content,
                sources := st.sources ++
                  [CitationSource.file title url (some (spBase ++ pyQuote title))] }
    else
      { st with content := content,
                sources := st.sources ++ [CitationSource.url title url] }
  | .filePathAnn fid =>
    let oname0 : Option String :=
      if st.mapping ≠ [] then lookupAssoc st.mapping fid else none
    let step1 : Option String × List (String × String) :=
      if pyTruthy oname0 then (oname0, st.mapping)
      else
        match uploads.find? (fun u => u.path != "") with
        | some u =>
          let nm := u.name.getD "Document"
          (some nm, assocSet st.mapping fid nm)
        | none => (oname0, st.mapping)
    let oname := match step1.1 with
      | some s => if s != "" then s else "Document"
      | none => "Document"
    { content := content,
      mapping := step1.2,
      sources := st.sources ++
        [CitationSource.file oname fid (some (spBase ++ pyQuote oname))] }
  | .otherAnn => { st with content := content }

/-- The dedup-and-render loop over `citation_sources` (lines 270-288):
`seen` models the `seen_sources` set, `acc` the buffer being extended. -/
def emitLoop (seen : List SourceKey) (acc : String) : List CitationSource → String
  | [] => acc
  | s :: rest =>
    if sourceKey s ∈ seen then emitLoop seen acc rest
    else emitLoop (sourceKey s :: seen) (acc ++ renderSource s) rest

/-- The citation-appending step (lines 263-288): nothing happens for an
empty source list; otherwise the buffer is stripped, the Sources header
appended, and the dedup loop emits one line per first-seen key. -/
def appendAgentCitations (content : String) (sources : List CitationSource) : String :=
  match sources with
  | [] => content
  | _ :: _ => emitLoop [] (pyStripS content ++ "\n\n**Sources:**") sources

/-- The authoritative final agent message: its `text.value` and its
`text.annotations` list. -/
structure ResponseMessage where
  text_value : String
  annots : List Annot

/-- All inputs of one `chat_agent` turn: the user text, the session lists,
the external collaborators' responses (upload ids, run-stream events, the
fetched last agent message, the environment override), and the session
`file_id_mapping` cache. -/
structure AgentTurnInput where
  user_input : String
  file_contents : List String
  file_uploads : List FileUpload
  fileIdOf : String → String
  events : List AgentEvent
  response : Option ResponseMessage
  sp_env : Option String
  mapping0 : List (String × String)

/-- Embeds the body of `chat_agent` (lines 47-291) up to its outer
`except` handler.  The image-extraction pass (lines 133-156) only persists
files and fills `msg.elements`, never the text buffer, and is external
I/O, so it is not part of the text-level model.  After a successful run
the delta-accumulated buffer is discarded: the annotation loop starts from
the fetched message's literal `text.value`. -/
def chat_agent_core (inp : AgentTurnInput) : Except String String :=
  let _blocks := build_content_blocks inp.user_input inp.file_contents
      inp.file_uploads inp.fileIdOf
  match runEventLoop { content := "", is_thinking := true } inp.events with
  | .error e => .error e
  | .ok _ =>
    match inp.response with
    | none => .error "No response from the model."
    | some m =>
      let spBase := resolveSpBase inp.sp_env
      let st0 : AnnState := { content := m.text_value, mapping := inp.mapping0, sources := [] }
      let stF := m.annots.foldl (processAnnot spBase inp.file_uploads) st0
      .ok (appendAgentCitations stF.content stF.sources)

/-- Embeds `chat_agent` (src/utils/foundry.py): run the body, normalizing
any raised exception at the single outer boundary. -/
def chat_agent (inp : AgentTurnInput) : Except String String :=
  wrapPipelineError "chat_agent" (chat_agent_core inp)

/-- A concrete turn input whose run stream fails immediately with a
rate-limit error (used for concrete evaluations). -/
def rateLimitedTurn : AgentTurnInput :=
  { user_input := "hi"
    file_contents := []
    file_uploads := []
    fileIdOf := fun _ => "f1"
    events := [{ is_error_type := false
                 data := EventData.threadRun "failed" "rate limited" }]
    response := none
    sp_env := none
    mapping0 := [] }

/-- A concrete turn input with an empty event stream and no fetched agent
message (used for concrete evaluations). -/
def missingResponseTurn : AgentTurnInput :=
  { user_input := "hi"
    file_contents := []
    file_uploads := []
    fileIdOf := fun _ => "f1"
    events := []
    response := none
    sp_env := none
    mapping0 := [] }

/-! ### Derived rendering helpers used in theorem statements -/

/-- Concatenation of one rendered line per element. -/
def concatLines (f : String → String) : List String → String
  | [] => ""
  | c :: rest => f c ++ concatLines f rest

/-- The direct pipeline's citation lines `"\n[c](c)"`, in order. -/
def directCitationLines (cs : List String) : String :=
  concatLines (fun c => "\n[" ++ c ++ "](" ++ c ++ ")") cs

/-- Concatenation of the rendered lines of a list of citation sources. -/
def concatSources : List CitationSource → String
  | [] => ""
  | s :: rest => renderSource s ++ concatSources rest

/-- Spec-side characterization of the dedup contract of the Agent pipeline
(compare the source-side `emitLoop`): keep a source only when its key was
not seen earlier, scanning the collected list in order. -/
def firstSeenKeep (seen : List SourceKey) : List CitationSource → List CitationSource
  | [] => []
  | s :: rest =>
    if sourceKey s ∈ seen then firstSeenKeep seen rest
    else s :: firstSeenKeep (sourceKey s :: seen) rest

/-! ### Helper lemmas -/

theorem listStartsWith_append (p t : List Char) : listStartsWith p (p ++ t) = true := by
  induction p with
  | nil => rfl
  | cons a as ih => simp [listStartsWith, ih]

theorem listStartsWith_self (p : List Char) : listStartsWith p p = true := by
  have h := listStartsWith_append p []
  simpa using h

theorem listStartsWith_decomp {p s : List Char} (h : listStartsWith p s = true) :
    ∃ t, s = p ++ t := by
  induction p generalizing s with
  | nil => exact ⟨s, rfl⟩
  | cons a as ih =>
    cases s with
    | nil => simp [listStartsWith] at h
    | cons b bs =>
      simp only [listStartsWith, Bool.and_eq_true, beq_iff_eq] at h
      obtain ⟨t, ht⟩ := ih h.2
      exact ⟨t, by simp [h.1, ht]⟩

theorem containsSeg_here (p b : List Char) : containsSeg p (p ++ b) = true := by
  cases h : p ++ b with
  | nil =>
    have hp : p = [] := by cases p <;> simp_all
    subst hp
    simp_all [containsSeg, listStartsWith]
  | cons c cs =>
    have hs : listStartsWith p (p ++ b) = true := listStartsWith_append p b
    rw [h] at hs
    simp [containsSeg, hs]

theorem containsSeg_mid (p a b : List Char) : containsSeg p (a ++ (p ++ b)) = true := by
  induction a with
  | nil => simpa using containsSeg_here p b
  | cons x xs ih => simp [containsSeg, ih]

theorem hasClose_mid (a b : List Char) : hasClose (a ++ (closeTag ++ b)) = true := by
  induction a with
  | nil =>
    have hs : listStartsWith closeTag (closeTag ++ b) = true := listStartsWith_append _ _
    cases h : closeTag ++ b with
    | nil => simp [closeTag] at h
    | cons c cs => rw [h] at hs; simp [hasClose, hs]
  | cons x xs ih => simp [hasClose, ih]

theorem pySplitThink_ne_nil (s : List Char) : pySplitThink s ≠ [] := by
  cases s with
  | nil => simp [pySplitThink]
  | cons c rest =>
    rw [pySplitThink]
    split
    · simp
    · split <;> simp

theorem pySplitThink_no_close {s : List Char} (h : hasClose s = false) :
    pySplitThink s = [s] := by
  induction s with
  | nil => simp [pySplitThink]
  | cons c rest ih =>
    simp only [hasClose, Bool.or_eq_false_iff] at h
    rw [pySplitThink, if_neg (by simp [h.1]), ih h.2]

theorem pySplitThink_two_of_hasClose {s : List Char} (h : hasClose s = true) :
    2 ≤ (pySplitThink s).length := by
  induction s with
  | nil => simp [hasClose] at h
  | cons c rest ih =>
    rw [pySplitThink]
    split
    · have := pySplitThink_ne_nil (rest.drop 7)
      cases hrec : pySplitThink (rest.drop 7) with
      | nil => exact absurd hrec this
      | cons x xs => simp
    · rename_i hns
      simp only [hasClose, Bool.or_eq_true] at h
      rcases h with h | h
      · exact absurd h hns
      · have h2 := ih h
        cases hrec : pySplitThink rest with
        | nil => exact absurd hrec (pySplitThink_ne_nil rest)
        | cons seg segs =>
          rw [hrec] at h2
          simp only [List.length_cons] at h2 ⊢
          omega

theorem getLastD_indep {α : Type} (l : List α) (d₁ d₂ : α) (h : l ≠ []) :
    l.getLastD d₁ = l.getLastD d₂ := by
  cases l with
  | nil => exact absurd rfl h
  | cons x xs => rw [List.getLastD_cons, List.getLastD_cons]

theorem closeTag_borderFree : ∀ k < 8, 1 ≤ k → closeTag.drop k ≠ closeTag.take (8 - k) := by
  decide

theorem closeTag_length : closeTag.length = 8 := rfl

theorem pySplitThink_close_head {B : List Char} (hB : hasClose B = false) :
    (pySplitThink (closeTag ++ B)).getLastD [] = B := by
  have hdrop : (closeTag ++ B).drop 8 = B := by
    have h8 := List.drop_left closeTag B
    rwa [closeTag_length] at h8
  have hs : listStartsWith closeTag (closeTag ++ B) = true := listStartsWith_append _ _
  cases h : closeTag ++ B with
  | nil => simp [closeTag] at h
  | cons c cs =>
    rw [h] at hs
    rw [pySplitThink, if_pos hs]
    have hdrop7 : cs.drop 7 = B := by
      rw [h] at hdrop
      simpa using hdrop
    rw [hdrop7, pySplitThink_no_close hB]
    simp

theorem pySplitThink_mid :
    ∀ (n : Nat) (A B : List Char), A.length ≤ n → hasClose B = false →
      (pySplitThink (A ++ (closeTag ++ B))).getLastD [] = B := by
  intro n
  induction n with
  | zero =>
    intro A B hlen hB
    have hA : A = [] := by cases A <;> simp_all
    subst hA
    simpa using pySplitThink_close_head hB
  | succ n ih =>
    intro A B hlen hB
    cases A with
    | nil =>
      simpa using pySplitThink_close_head hB
    | cons a A' =>
      by_cases hs : listStartsWith closeTag (a :: (A' ++ (closeTag ++ B))) = true
      · by_cases hlen7 : 7 ≤ A'.length
        · rw [List.cons_append, pySplitThink, if_pos hs]
          have hdrop : (A' ++ (closeTag ++ B)).drop 7 = A'.drop 7 ++ (closeTag ++ B) := by
            rw [List.drop_append_eq_append_drop]
            have hz : 7 - A'.length = 0 := by omega
            rw [hz]
            simp
          rw [hdrop, List.getLastD_cons]
          exact ih (A'.drop 7) B
            (by simp only [List.length_drop]
                simp only [List.length_cons] at hlen
                omega) hB
        · exfalso
          obtain ⟨t, ht⟩ := listStartsWith_decomp hs
          have ht' : ((a :: A') ++ (closeTag ++ B)) = closeTag ++ t := by simpa using ht
          have hA : (a :: A').length ≤ 7 := by simp only [List.length_cons]; omega
          have hA1 : 1 ≤ (a :: A').length := by simp
          have htake8 : List.take 8 closeTag = closeTag := by decide
          have h1 : (closeTag ++ t).take 8 = closeTag := by
            rw [List.take_append_eq_append_take, closeTag_length]
            simp [htake8]
          have h2 : ((a :: A') ++ (closeTag ++ B)).take 8 =
              (a :: A') ++ closeTag.take (8 - (a :: A').length) := by
            rw [List.take_append_eq_append_take]
            rw [List.take_of_length_le (le_trans hA (by norm_num))]
            congr 1
            rw [List.take_append_eq_append_take, closeTag_length]
            have hz : 8 - (a :: A').length - 8 = 0 := by omega
            rw [hz]
            simp
          rw [ht', h1] at h2
          have hborder : closeTag.drop (a :: A').length =
              closeTag.take (8 - (a :: A').length) := by
            conv_lhs => rw [h2]
            rw [List.drop_left]
          exact closeTag_borderFree (a :: A').length (by omega) hA1 hborder
      · rw [List.cons_append, pySplitThink, if_neg hs]
        have hhc : hasClose (A' ++ (closeTag ++ B)) = true := hasClose_mid A' B
        have h2 := pySplitThink_two_of_hasClose hhc
        have hlast := ih A' B
          (by simp only [List.length_cons] at hlen; omega) hB
        cases hrec : pySplitThink (A' ++ (closeTag ++ B)) with
        | nil => exact absurd hrec (pySplitThink_ne_nil _)
        | cons seg segs =>
          rw [hrec] at h2 hlast
          have hsegs : segs ≠ [] := by
            cases segs with
            | nil => simp at h2
            | cons y ys => simp
          rw [List.getLastD_cons] at hlast
          simp only [List.getLastD_cons]
          rw [getLastD_indep segs (a :: seg) seg hsegs]
          exact hlast

theorem pyLastSegThink_after_close (A B : List Char) (h : hasClose B = false) :
    pyLastSegThink (A ++ (closeTag ++ B)) = B :=
  pySplitThink_mid A.length A B le_rfl h

theorem listStartsWith_of_decomp {p q : List Char} (t : List Char) (h : ∃ r, q = p ++ r) :
    listStartsWith p (q ++ t) = true := by
  obtain ⟨r, rfl⟩ := h
  rw [List.append_assoc]
  exact listStartsWith_append p (r ++ t)

theorem listStartsWith_append_of_le (p : List Char) :
    ∀ (q t : List Char), p.length ≤ q.length →
      listStartsWith p (q ++ t) = listStartsWith p q := by
  induction p with
  | nil => intro q t _; rfl
  | cons a as ih =>
    intro q t hlen
    cases q with
    | nil => simp at hlen
    | cons b bs =>
      simp only [List.cons_append, listStartsWith, List.append_eq]
      rw [ih bs t (by simpa using hlen)]

theorem runEventLoop_append (st : DeltaState) (l₁ l₂ : List AgentEvent) :
    runEventLoop st (l₁ ++ l₂) =
      match runEventLoop st l₁ with
      | .error e => .error e
      | .ok st' => runEventLoop st' l₂ := by
  induction l₁ generalizing st with
  | nil => simp [runEventLoop]
  | cons ev rest ih =>
    simp only [List.cons_append, runEventLoop]
    cases dispatchEvent st ev with
    | error e => simp
    | ok st' => simpa using ih st'

theorem wrapPipelineError_error {pname : String} {r : Except String String} {msg : String}
    (h : wrapPipelineError pname r = .error msg) :
    ∃ e₀, r = .error e₀ ∧ msg = "Error generating response in " ++ pname ++ ": " ++ e₀ := by
  cases r with
  | ok s => simp [wrapPipelineError] at h
  | error e =>
    refine ⟨e, rfl, ?_⟩
    simp only [wrapPipelineError, Except.error.injEq] at h
    exact h.symm

theorem containsSeg_wrap (pname e₀ : String) :
    containsSeg pname.data
      ("Error generating response in " ++ pname ++ ": " ++ e₀).data = true := by
  have h := containsSeg_mid pname.data "Error generating response in ".data
    (": ".data ++ e₀.data)
  simpa [String.data_append, List.append_assoc] using h

theorem containsSeg_err (pname e₀ : String) :
    containsSeg e₀.data
      ("Error generating response in " ++ pname ++ ": " ++ e₀).data = true := by
  have h := containsSeg_mid e₀.data
    ("Error generating response in ".data ++ (pname.data ++ ": ".data)) []
  simpa [String.data_append, List.append_assoc] using h

theorem processChunk_last (st : StreamState) (ch : Chunk) :
    (processChunk st ch).last_chunk =
      if ch.citations.isSome then some ch else st.last_chunk := by
  rcases ch with ⟨dc, cit⟩
  cases hthink : st.is_thinking <;> cases dc <;> cases cit <;>
    simp [processChunk, hthink] <;> (try split) <;> simp

theorem streamFold_last_const (post : List Chunk) :
    ∀ st : StreamState, (∀ c ∈ post, c.citations = none) →
      (post.foldl processChunk st).last_chunk = st.last_chunk := by
  induction post with
  | nil => intro st _; rfl
  | cons ch rest ih =>
    intro st h
    have hch := h ch (List.mem_cons_self ch rest)
    have hrest : ∀ c ∈ rest, c.citations = none :=
      fun c hc => h c (List.mem_cons_of_mem ch hc)
    rw [List.foldl_cons, ih _ hrest, processChunk_last, hch]
    simp

theorem foldl_append_concat (f : String → String) (cs : List String) :
    ∀ a : String, cs.foldl (fun acc c => acc ++ f c) a = a ++ concatLines f cs := by
  induction cs with
  | nil => intro a; simp [concatLines]
  | cons c rest ih =>
    intro a
    rw [List.foldl_cons, ih (a ++ f c), concatLines, String.append_assoc]

theorem uploadFold_blocks_const (user_input : String) (fileIdOf : String → String)
    (post : List FileUpload) :
    ∀ st : List ContentBlock × List MsgAttachment,
      (∀ v ∈ post, v.path = "" ∨ listStartsWith "image/".data v.mime.data = false) →
      (post.foldl (uploadStep user_input fileIdOf) st).1 = st.1 := by
  induction post with
  | nil => intro st _; rfl
  | cons u rest ih =>
    intro st h
    have hu := h u (List.mem_cons_self u rest)
    have hrest : ∀ v ∈ rest, v.path = "" ∨ listStartsWith "image/".data v.mime.data = false :=
      fun v hv => h v (List.mem_cons_of_mem u hv)
    have h1 : (uploadStep user_input fileIdOf st u).1 = st.1 := by
      unfold uploadStep
      rcases hu with hu | hu
      · simp [hu]
      · by_cases hp : (u.path != "") = true
        · simp [hp, hu]
        · simp [hp]
    rw [List.foldl_cons, ih (uploadStep user_input fileIdOf st u) hrest, h1]

theorem emitLoop_eq_concat (l : List CitationSource) :
    ∀ (seen : List SourceKey) (acc : String),
      emitLoop seen acc l = acc ++ concatSources (firstSeenKeep seen l) := by
  induction l with
  | nil => intro seen acc; simp [emitLoop, firstSeenKeep, concatSources]
  | cons s rest ih =>
    intro seen acc
    by_cases h : sourceKey s ∈ seen
    · simp only [emitLoop, firstSeenKeep, if_pos h]
      exact ih seen acc
    · simp only [emitLoop, firstSeenKeep, if_neg h]
      rw [ih (sourceKey s :: seen) (acc ++ renderSource s), concatSources,
        String.append_assoc]

theorem firstSeenKeep_nodup (l : List CitationSource) :
    ∀ seen : List SourceKey,
      ((firstSeenKeep seen l).map sourceKey).Nodup ∧
      ∀ k ∈ (firstSeenKeep seen l).map sourceKey, k ∉ seen := by
  induction l with
  | nil => intro seen; simp [firstSeenKeep]
  | cons s rest ih =>
    intro seen
    by_cases h : sourceKey s ∈ seen
    · simp only [firstSeenKeep, if_pos h]
      exact ih seen
    · simp only [firstSeenKeep, if_neg h, List.map_cons, List.nodup_cons]
      obtain ⟨ih1, ih2⟩ := ih (sourceKey s :: seen)
      refine ⟨⟨?_, ih1⟩, ?_⟩
      · intro hmem
        exact (ih2 _ hmem) (List.mem_cons_self _ _)
      · intro k hk
        rcases List.mem_cons.mp hk with hk | hk
        · rw [hk]; exact h
        · intro hks
          exact (ih2 k hk) (List.mem_cons_of_mem _ hks)

theorem firstSeenKeep_sublist (l : List CitationSource) :
    ∀ seen, List.Sublist (firstSeenKeep seen l) l := by
  induction l with
  | nil => intro seen; simp [firstSeenKeep]
  | cons s rest ih =>
    intro seen
    by_cases h : sourceKey s ∈ seen
    · simp only [firstSeenKeep, if_pos h]
      exact (ih seen).cons s
    · simp only [firstSeenKeep, if_neg h]
      exact (ih _).cons₂ s

theorem firstSeenKeep_covers (l : List CitationSource) :
    ∀ seen, ∀ s ∈ l, sourceKey s ∈ seen ∨
      sourceKey s ∈ (firstSeenKeep seen l).map sourceKey := by
  induction l with
  | nil => intro seen s hs; simp at hs
  | cons s0 rest ih =>
    intro seen s hs
    rcases List.mem_cons.mp hs with hs | hs
    · subst hs
      by_cases h : sourceKey s ∈ seen
      · exact Or.inl h
      · right
        simp [firstSeenKeep, if_neg h]
    · by_cases h : sourceKey s0 ∈ seen
      · simp only [firstSeenKeep, if_pos h]
        exact ih seen s hs
      · simp only [firstSeenKeep, if_neg h, List.map_cons]
        rcases ih (sourceKey s0 :: seen) s hs with hk | hk
        · rcases List.mem_cons.mp hk with hk | hk
          · right; rw [hk]; exact List.mem_cons_self _ _
          · exact Or.inl hk
        · right; exact List.mem_cons_of_mem _ hk

/-! ### Claim theorems -/

/-- Claim C4 (thinking-block stripping, Direct pipeline): for every
accumulated text of the form `<think>X</think>Y` — with `Y` the trailing
text after the thinking block, so that `Y` contains no further closing
delimiter and the decomposition is unambiguous — the finalized buffer
equals `Y` trimmed of surrounding whitespace; and any accumulated text
that does not begin with the opening `<think>` marker is left unchanged by
this step. -/
theorem chat_completion_strip_thinking_spec :
    (∀ X Y : String, hasClose Y.data = false →
      stripThinking ("<think>" ++ X ++ "</think>" ++ Y) = pyStripS Y) ∧
    (∀ s : String, listStartsWith openTag s.data = false → stripThinking s = s) := by
  constructor
  · intro X Y hY
    have hdata : ("<think>" ++ X ++ "</think>" ++ Y).data =
        openTag ++ (X.data ++ (closeTag ++ Y.data)) := by
      simp [String.data_append, openTag, closeTag, List.append_assoc]
    unfold stripThinking
    rw [hdata, if_pos (listStartsWith_append _ _)]
    have hkey : pyLastSegThink (openTag ++ (X.data ++ (closeTag ++ Y.data))) = Y.data := by
      have h := pyLastSegThink_after_close (openTag ++ X.data) Y.data hY
      rwa [List.append_assoc] at h
    rw [hkey]
    rfl
  · intro s hs
    unfold stripThinking
    rw [if_neg (by simp [hs])]

/-- Witness for C4 at a concrete input. -/
theorem chat_completion_strip_thinking_witness :
    stripThinking ("<think>" ++ "x" ++ "</think>" ++ " hi ") = "hi" := by
  have h := chat_completion_strip_thinking_spec.1 "x" " hi " (by decide)
  rw [h]
  decide

/-- Claim C8 (parameter-builder temperature rule): for the azure provider
the built parameters carry the raw (uncoerced) session temperature exactly
when the model name is not in the exclusion set `["o3-mini"]`, and the API
version / API base keys are attached only when present on the resolved
descriptor; for any other provider the temperature is attached
unconditionally, coerced by Python `float`. -/
theorem get_llm_params_temperature_rule (cs : ChatSettings) (chat_profile : String)
    (d : LlmDetails) (messages : List String) (use_tools : Bool) :
    (cs.model_provider = "azure" →
      (get_llm_params cs chat_profile d messages use_tools).temperature =
        (if cs.model_name ∈ ["o3-mini"] then none
         else some (TempParam.raw cs.temperature)) ∧
      ((get_llm_params cs chat_profile d messages use_tools).api_version.isSome →
        d.api_version.isSome) ∧
      ((get_llm_params cs chat_profile d messages use_tools).api_base.isSome →
        d.api_endpoint.isSome)) ∧
    (cs.model_provider ≠ "azure" →
      (get_llm_params cs chat_profile d messages use_tools).temperature =
        some (TempParam.pyFloat cs.temperature)) := by
  constructor
  · intro hp
    by_cases h1 : pyTruthy d.api_version = true <;>
      by_cases h2 : pyTruthy d.api_endpoint = true <;>
        by_cases h3 : cs.model_name ∈ ["o3-mini"] <;>
          cases use_tools <;>
            simp_all [get_llm_params, pyTruthy]
  · intro hp
    cases use_tools <;> simp [get_llm_params, hp]

/-- Witness for C8 at a concrete azure configuration. -/
theorem get_llm_params_temperature_witness :
    (get_llm_params ⟨"0.7", "azure", "gpt-4o"⟩ "azure/gpt-4o"
      ⟨none, some "2024-02-01", some "https://endpoint"⟩ ["m"] false).temperature =
      some (TempParam.raw "0.7") := by
  have h := ((get_llm_params_temperature_rule ⟨"0.7", "azure", "gpt-4o"⟩ "azure/gpt-4o"
    ⟨none, some "2024-02-01", some "https://endpoint"⟩ ["m"] false).1 rfl).1
  rw [h]
  decide

/-- Claim C10 (use_tools never forwarded): `chat_completion` builds its
parameter object by calling the builder without its `use_tools` argument,
so for every value passed to `chat_completion` the built parameters carry
no tools entry. -/
theorem chat_completion_use_tools_ignored (cs : ChatSettings) (chat_profile : String)
    (d : LlmDetails) (messages : List String) (use_tools : Bool) :
    (chat_completion_params cs chat_profile d messages use_tools).tools = none := by
  unfold chat_completion_params
  by_cases hp : cs.model_provider = "azure" <;>
    by_cases h1 : pyTruthy d.api_version = true <;>
      by_cases h2 : pyTruthy d.api_endpoint = true <;>
        by_cases h3 : cs.model_name ∈ ["o3-mini"] <;>
          simp_all [get_llm_params]

/-- Claim C6 (run-failure handling, Agent pipeline): whenever the event
stream reaches a run-status event with status `"failed"` (i.e. the events
before it dispatch without error), the pipeline raises an error carrying
the run's last-error payload, and the error ultimately reported by
`chat_agent` contains that payload's text. -/
theorem chat_agent_run_failed_spec (inp : AgentTurnInput) (pre post : List AgentEvent)
    (flag : Bool) (err : String) (st' : DeltaState)
    (hev : inp.events =
      pre ++ ({ is_error_type := flag, data := EventData.threadRun "failed" err } :: post))
    (hpre : runEventLoop { content := "", is_thinking := true } pre = .ok st') :
    chat_agent inp = .error ("Error generating response in chat_agent: " ++ err) ∧
    containsSeg err.data ("Error generating response in chat_agent: " ++ err).data = true := by
  constructor
  · have hloop : runEventLoop { content := "", is_thinking := true } inp.events =
        .error err := by
      rw [hev, runEventLoop_append, hpre]
      simp [runEventLoop, dispatchEvent]
    have hcore : chat_agent_core inp = .error err := by
      unfold chat_agent_core
      rw [hloop]
    show wrapPipelineError "chat_agent" (chat_agent_core inp) = _
    rw [hcore]
    rfl
  · have h := containsSeg_mid err.data "Error generating response in chat_agent: ".data []
    rw [List.append_nil] at h
    rwa [String.data_append]

/-- Witness for C6: a stream whose only event is a failed run with
last error `"rate limited"`. -/
theorem chat_agent_run_failed_witness :
    chat_agent rateLimitedTurn =
      .error ("Error generating response in chat_agent: " ++ "rate limited") ∧
    containsSeg "rate limited".data
      ("Error generating response in chat_agent: " ++ "rate limited").data = true :=
  chat_agent_run_failed_spec rateLimitedTurn [] [] false "rate limited"
    { content := "", is_thinking := true } rfl rfl

/-- Claim C7 (finalization, Agent pipeline): after a run whose event
stream dispatches without error, the pipeline inspects the fetched last
agent-role message; if there is none it raises
`"No response from the model."` (never a silent empty success), and if
there is one the buffer used from then on is that message's literal text
value — the result is computed from `m.text_value` alone, independently of
whatever text was accumulated from delta events. -/
theorem chat_agent_finalization_spec (inp : AgentTurnInput) (st' : DeltaState)
    (hrun : runEventLoop { content := "", is_thinking := true } inp.events = .ok st') :
    (inp.response = none → chat_agent_core inp = .error "No response from the model.") ∧
    (∀ m : ResponseMessage, inp.response = some m →
      chat_agent_core inp = .ok (appendAgentCitations
        (m.annots.foldl (processAnnot (resolveSpBase inp.sp_env) inp.file_uploads)
          { content := m.text_value, mapping := inp.mapping0, sources := [] }).content
        (m.annots.foldl (processAnnot (resolveSpBase inp.sp_env) inp.file_uploads)
          { content := m.text_value, mapping := inp.mapping0, sources := [] }).sources)) := by
  constructor
  · intro h
    unfold chat_agent_core
    rw [hrun, h]
  · intro m h
    unfold chat_agent_core
    rw [hrun, h]

/-- Witness for C7: a completed run with no agent message raises the
missing-response error. -/
theorem chat_agent_finalization_witness :
    chat_agent_core missingResponseTurn = .error "No response from the model." :=
  (chat_agent_finalization_spec missingResponseTurn
    { content := "", is_thinking := true } rfl).1 rfl

/-- Claim C9 (outer error wrapping): every error escaping either pipeline
entry point has the single normalized shape produced by the one outer
handler — the message is the pipeline name's wrapper applied to the
original exception message, so it contains both the pipeline name and the
original message text; no other error shape escapes. -/
theorem pipeline_error_wrapping_spec :
    (∀ (mname : String) (backend : Except String (List Chunk)) (msg : String),
      chat_completion mname backend = .error msg →
      ∃ e₀, chat_completion_core mname backend = .error e₀ ∧
        msg = "Error generating response in " ++ "chat_completion" ++ ": " ++ e₀ ∧
        containsSeg "chat_completion".data msg.data = true ∧
        containsSeg e₀.data msg.data = true) ∧
    (∀ (inp : AgentTurnInput) (msg : String),
      chat_agent inp = .error msg →
      ∃ e₀, chat_agent_core inp = .error e₀ ∧
        msg = "Error generating response in " ++ "chat_agent" ++ ": " ++ e₀ ∧
        containsSeg "chat_agent".data msg.data = true ∧
        containsSeg e₀.data msg.data = true) := by
  constructor
  · intro mname backend msg h
    obtain ⟨e₀, hr, hmsg⟩ := wrapPipelineError_error (r := chat_completion_core mname backend) h
    exact ⟨e₀, hr, hmsg, hmsg ▸ containsSeg_wrap "chat_completion" e₀,
      hmsg ▸ containsSeg_err "chat_completion" e₀⟩
  · intro inp msg h
    obtain ⟨e₀, hr, hmsg⟩ := wrapPipelineError_error (r := chat_agent_core inp) h
    exact ⟨e₀, hr, hmsg, hmsg ▸ containsSeg_wrap "chat_agent" e₀,
      hmsg ▸ containsSeg_err "chat_agent" e₀⟩

/-- Witness for C9: a failing backend call in the direct pipeline is
reported with the pipeline name and the original message. -/
theorem pipeline_error_wrapping_witness :
    ∃ e₀, chat_completion_core "m" (Except.error "boom") = Except.error e₀ ∧
      ("Error generating response in chat_completion: boom" : String) =
        "Error generating response in " ++ "chat_completion" ++ ": " ++ e₀ ∧
      containsSeg "chat_completion".data
        "Error generating response in chat_completion: boom".data = true ∧
      containsSeg e₀.data
        "Error generating response in chat_completion: boom".data = true :=
  pipeline_error_wrapping_spec.1 "m" (Except.error "boom")
    "Error generating response in chat_completion: boom" rfl

/-- Claim C5 (image upload replaces content blocks, Agent pipeline): for a
turn with user text and a pending upload with a truthy path whose MIME
type starts with `image/` — and no later image upload being processed —
the content-block list sent to the agent service is replaced by exactly
two blocks: the user text block followed by the image-file block for the
uploaded file identifier.  Image uploads earlier in the list are allowed,
so only the most recently processed image upload's pair survives. -/
theorem chat_agent_image_upload_spec (user_input : String) (file_contents : List String)
    (fileIdOf : String → String) (pre post : List FileUpload) (u : FileUpload)
    (hpath : u.path ≠ "") (himg : listStartsWith "image/".data u.mime.data = true)
    (hpost : ∀ v ∈ post, v.path = "" ∨ listStartsWith "image/".data v.mime.data = false) :
    (build_content_blocks user_input file_contents (pre ++ u :: post) fileIdOf).1 =
      [ContentBlock.text user_input, ContentBlock.imageFile (fileIdOf u.path) "high"] ∧
    (build_content_blocks user_input file_contents (pre ++ u :: post) fileIdOf).1.length = 2 := by
  have key : (build_content_blocks user_input file_contents (pre ++ u :: post) fileIdOf).1 =
      [ContentBlock.text user_input, ContentBlock.imageFile (fileIdOf u.path) "high"] := by
    unfold build_content_blocks
    rw [List.foldl_append, List.foldl_cons]
    generalize List.foldl (uploadStep user_input fileIdOf)
      (ContentBlock.text user_input :: List.map ContentBlock.text file_contents, []) pre = st
    have hstep : uploadStep user_input fileIdOf st u =
        ([ContentBlock.text user_input, ContentBlock.imageFile (fileIdOf u.path) "high"],
         st.2 ++ [{ file_id := fileIdOf u.path, tools := codeInterpreterDefs }]) := by
      unfold uploadStep
      rw [if_pos (by simpa using hpath), if_pos himg]
    rw [hstep]
    exact uploadFold_blocks_const user_input fileIdOf post _ hpost
  exact ⟨key, by rw [key]; rfl⟩

/-- Witness for C5: one image attachment yields exactly the two-block
pair. -/
theorem chat_agent_image_upload_witness :
    (build_content_blocks "describe" ["ctx"]
      ([] ++ ({ name := some "img.png", mime := "image/png", path := "/tmp/img.png" } : FileUpload) :: [])
      (fun _ => "assistant-file-1")).1 =
      [ContentBlock.text "describe", ContentBlock.imageFile "assistant-file-1" "high"] :=
  (chat_agent_image_upload_spec "describe" ["ctx"] (fun _ => "assistant-file-1") [] []
    { name := some "img.png", mime := "image/png", path := "/tmp/img.png" }
    (by decide) (by decide) (by simp)).1

/-- Claim C3 (last-citations-wins, Direct pipeline): for a finite chunk
stream containing a citation-bearing chunk `ch` followed only by chunks
without citations (in particular when an earlier chunk at a lower position
also carried citations), the Sources block appended after exhaustion is
built from `ch`'s citations list alone: the `"\n\n**Sources:**"` header
followed by one `"\n[c](c)"` link line per citation URL in `ch`'s order,
with no deduplication. -/
theorem chat_completion_last_citations_wins (mname : String) (pre post : List Chunk)
    (ch : Chunk) (cs : List String)
    (hch : ch.citations = some cs)
    (hpost : ∀ c ∈ post, c.citations = none)
    (hpre : ∃ c ∈ pre, c.citations.isSome = true) :
    chat_completion_output mname (pre ++ ch :: post) =
      stripThinking ((streamRun mname (pre ++ ch :: post)).content ++
        "\n\n**Sources:**" ++ directCitationLines cs) := by
  have hlast : (streamRun mname (pre ++ ch :: post)).last_chunk = some ch := by
    unfold streamRun
    rw [List.foldl_append, List.foldl_cons]
    rw [streamFold_last_const post _ hpost, processChunk_last]
    simp [hch]
  simp only [chat_completion_output]
  rw [hlast]
  unfold appendDirectSources
  simp only [hch]
  rw [foldl_append_concat]
  rfl

/-- Witness for C3: two citation-bearing chunks; only the later one is
rendered. -/
theorem chat_completion_last_citations_witness :
    chat_completion_output "m"
        ([⟨some "Hi", some ["u0"]⟩] ++ (⟨none, some ["a", "b"]⟩ : Chunk) :: [⟨some "!", none⟩]) =
      stripThinking ((streamRun "m"
          ([⟨some "Hi", some ["u0"]⟩] ++ (⟨none, some ["a", "b"]⟩ : Chunk) :: [⟨some "!", none⟩])).content ++
        "\n\n**Sources:**" ++ directCitationLines ["a", "b"]) :=
  chat_completion_last_citations_wins "m" [⟨some "Hi", some ["u0"]⟩] [⟨some "!", none⟩]
    ⟨none, some ["a", "b"]⟩ ["a", "b"] rfl (by decide) (by decide)

/-- Claim C1 (citation dedup, Agent pipeline): given the collected
citation-source list, the emitted Sources block consists of the stripped
buffer, the `"\n\n**Sources:**"` header, and the rendered lines of exactly
the first-seen source per dedup key, in first-seen order: the kept keys
are pairwise distinct (one line per key), form a sublist of the collected
list (first-seen order), and cover every collected source's key. -/
theorem agent_citation_dedup_spec (content : String) (sources : List CitationSource)
    (hne : sources ≠ []) :
    appendAgentCitations content sources =
      pyStripS content ++ "\n\n**Sources:**" ++ concatSources (firstSeenKeep [] sources) ∧
    ((firstSeenKeep [] sources).map sourceKey).Nodup ∧
    List.Sublist (firstSeenKeep [] sources) sources ∧
    (∀ s ∈ sources, sourceKey s ∈ (firstSeenKeep [] sources).map sourceKey) := by
  refine ⟨?_, (firstSeenKeep_nodup sources []).1, firstSeenKeep_sublist sources [], ?_⟩
  · cases sources with
    | nil => exact absurd rfl hne
    | cons s rest =>
      show emitLoop [] (pyStripS content ++ "\n\n**Sources:**") (s :: rest) = _
      rw [emitLoop_eq_concat]
  · intro s hs
    rcases firstSeenKeep_covers sources [] s hs with hk | hk
    · exact absurd hk (List.not_mem_nil _)
    · exact hk

/-- Witness for C1: a duplicated URL citation yields a single line. -/
theorem agent_citation_dedup_witness :
    appendAgentCitations "Answer "
        [CitationSource.url "Doc" "https://ex.com", CitationSource.url "Doc" "https://ex.com"] =
      pyStripS "Answer " ++ "\n\n**Sources:**" ++
        concatSources (firstSeenKeep []
          [CitationSource.url "Doc" "https://ex.com", CitationSource.url "Doc" "https://ex.com"]) :=
  (agent_citation_dedup_spec "Answer "
    [CitationSource.url "Doc" "https://ex.com", CitationSource.url "Doc" "https://ex.com"]
    (by decide)).1

/-- Claim C2 (file vs URL reclassification, Agent pipeline): a
URL-citation annotation whose URL starts with the reserved `doc_` prefix
is appended as a file citation whose rendered line uses the file-citation
format (the `"\n- 📄 "` prefix) and never the URL format (the `"\n- ["`
prefix); a URL-citation annotation whose URL does not start with the
prefix is appended as an external URL citation rendered as
`"\n- [title](url)"`. -/
theorem agent_annot_classification_spec (spBase : String) (uploads : List FileUpload)
    (st : AnnState) (marker : Option String) (title url : String) :
    (listStartsWith docPrefixTag url.data = true →
      (processAnnot spBase uploads st ⟨marker, AnnotKind.urlCitation title url⟩).sources =
        st.sources ++ [CitationSource.file title url (some (spBase ++ pyQuote title))] ∧
      listStartsWith "\n- 📄 ".data
        (renderSource (CitationSource.file title url (some (spBase ++ pyQuote title)))).data
          = true ∧
      listStartsWith "\n- [".data
        (renderSource (CitationSource.file title url (some (spBase ++ pyQuote title)))).data
          = false) ∧
    (listStartsWith docPrefixTag url.data = false →
      (processAnnot spBase uploads st ⟨marker, AnnotKind.urlCitation title url⟩).sources =
        st.sources ++ [CitationSource.url title url] ∧
      renderSource (CitationSource.url title url) =
        "\n- [" ++ title ++ "](" ++ url ++ ")") := by
  constructor
  · intro h
    have hne : url ≠ "" := by
      intro hurl
      rw [hurl] at h
      simp [docPrefixTag, listStartsWith] at h
    refine ⟨?_, ?_, ?_⟩
    · simp [processAnnot, h, hne]
    · have hdata : (renderSource
          (CitationSource.file title url (some (spBase ++ pyQuote title)))).data =
          "\n- 📄 [".data ++ (title.data ++ ("](".data ++ ((spBase ++ pyQuote title).data ++ ")".data))) := by
        simp [renderSource, String.data_append, List.append_assoc]
      rw [hdata]
      exact listStartsWith_of_decomp _ ⟨['['], by decide⟩
    · have hdata : (renderSource
          (CitationSource.file title url (some (spBase ++ pyQuote title)))).data =
          "\n- 📄 [".data ++ (title.data ++ ("](".data ++ ((spBase ++ pyQuote title).data ++ ")".data))) := by
        simp [renderSource, String.data_append, List.append_assoc]
      rw [hdata]
      rw [listStartsWith_append_of_le _ _ _ (by decide)]
      decide
  · intro h
    refine ⟨?_, rfl⟩
    simp [processAnnot, h]

/-- Witness for C2: a `doc_`-prefixed URL citation is appended as a file
source. -/
theorem agent_annot_classification_witness :
    (processAnnot "https://sp/" [] ⟨"Body", [], []⟩
        ⟨none, AnnotKind.urlCitation "Report.pdf" "doc_3"⟩).sources =
      [CitationSource.file "Report.pdf" "doc_3" (some ("https://sp/" ++ pyQuote "Report.pdf"))] := by
  have h := ((agent_annot_classification_spec "https://sp/" [] ⟨"Body", [], []⟩
    none "Report.pdf" "doc_3").1 (by decide)).1
  simpa using h

end Carebot
